import Mathlib

/-
Verification of the event-sourced read-model builder in
src/app/src/script.js of the token-request-app repository.

The JavaScript reducer and its helpers are shallowly embedded below.
JavaScript dynamic values that may be either numbers or strings (token
metadata fields such as `decimals`) are modelled by `JSVal`; a field that
may be absent or set to `undefined` is modelled by `Option`; a JavaScript
state value that may itself be `undefined` (the handlers can return
`undefined` through a fall-through `catch` or `else` branch) is modelled
by `JSState := Option StateRec`; a promise rejection escaping a handler
is modelled by `Except Unit`.

External collaborators (the on-chain read calls behind getTokenName,
getTokenSymbol, getTokenDecimals, web3Eth getBlock, and the static
fallback table from lib/token-utils) are not part of src/app/src/script.js;
they are passed in as explicit oracle parameters, so every theorem
quantifies over all of their possible outcomes.
-/

namespace TokenRequestApp

/-- Models a JavaScript dynamic value that is either a number or a string
(the two shapes that token metadata fields take in this program). -/
inductive JSVal
  | num (n : Int)
  | str (s : String)
deriving DecidableEq, Repr

/-- JavaScript truthiness test for the values of `JSVal`: the number 0 and
the empty string are falsy, everything else is truthy. -/
def JSVal.falsy : JSVal → Bool
  | .num n => n == 0
  | .str s => s == ""

/-- Models the JavaScript expression `x || d` where `x : Option JSVal` may
be absent (`undefined`) or falsy, in which case the default `d` is taken. -/
def jsOr : Option JSVal → JSVal → JSVal
  | some v, d => if v.falsy then d else v
  | none, d => d

/-- Modelled from the spec: the request status enum of
src/app/src/lib/constants (`requestStatus`), which is imported by
script.js but whose file is not included under src/. The spec gives the
enum as PENDING, APPROVED, WITHDRAWN, three distinct constants. -/
inductive Status
  | PENDING
  | APPROVED
  | WITHDRAWN
deriving DecidableEq, Repr

/-- A resolved token descriptor, as returned by `getTokenData` in
script.js: the three metadata fields plus the token address. -/
structure Token where
  decimals : JSVal
  name : JSVal
  symbol : JSVal
  address : String
deriving DecidableEq, Repr

/-- A request record, with exactly the fields appended by
`newTokenRequest` in script.js. The `returnValues` payload fields are
strings (web3 event decoding); the resolved metadata fields are `JSVal`. -/
structure Request where
  requestId : String
  requesterAddress : String
  depositToken : String
  depositDecimals : JSVal
  depositName : JSVal
  depositSymbol : JSVal
  depositAmount : String
  requestToken : String
  requestDecimals : JSVal
  requestName : JSVal
  requestSymbol : JSVal
  requestAmount : String
  requestTokenId : String
  reference : String
  status : Status
  date : Int
deriving DecidableEq, Repr

/-- The application state object built by the reducer of script.js. Every
field may be absent from the JavaScript object, so each is an `Option`. -/
structure StateRec where
  account : Option String
  isSyncing : Option Bool
  orgTokens : Option (List Token)
  acceptedTokens : Option (List Token)
  requests : Option (List Request)
deriving DecidableEq, Repr

/-- A JavaScript state value: either a state object or `undefined` (the
handlers of script.js can return `undefined`). -/
abbrev JSState := Option StateRec

/-- The state object with every field absent, i.e. the JavaScript `{}`. -/
def emptyRec : StateRec :=
  { account := none, isSyncing := none, orgTokens := none,
    acceptedTokens := none, requests := none }

/-- Models the JavaScript spread `{...state}` at the top of the reducer in
script.js: spreading `undefined` yields the empty object, spreading an
object yields a shallow copy. -/
def spreadRec : JSState → StateRec
  | some s => s
  | none => emptyRec

/-- Modelled from the spec: the static fallback table `tokenDataFallback`
of lib/token-utils (not under src/), keyed by token address, field name
and network type; an absent entry is `none`. -/
def FallbackTable : Type := String → String → String → Option JSVal

/-- The `settings` object threaded through script.js: the network type
(from `app.network()`), together with the imported fallback table, which
is a process-wide constant in the source and is made explicit here. -/
structure Settings where
  fbTable : FallbackTable
  networkType : String

deriving instance DecidableEq for Except

/-- Outcomes of the three external metadata calls (`getTokenDecimals`,
`getTokenName`, `getTokenSymbol` of lib/token-utils) for one token:
each either rejects (`Except.error`) or resolves to a value. -/
structure ExtCalls where
  decimalsCall : Except Unit JSVal
  nameCall : Except Unit JSVal
  symbolCall : Except Unit JSVal
deriving DecidableEq, Repr

/-- Outcomes of the external lookups performed while handling one
`TokenRequestCreated` event: the metadata calls for the deposit and the
request token, and the `web3Eth('getBlock', ...)` timestamp lookup, which
either rejects (or returns a block with no usable timestamp) or resolves
to an integer timestamp in seconds. -/
structure CreateOracle where
  depositCalls : ExtCalls
  requestCalls : ExtCalls
  blockResult : Except Unit Int
deriving DecidableEq, Repr

/-- The `returnValues` payload of a `TokenRequestCreated` event, as
destructured by `newTokenRequest` in script.js. -/
structure CreateReturnValues where
  requestId : String
  requesterAddress : String
  depositToken : String
  depositAmount : String
  requestToken : String
  requestAmount : String
  requestTokenId : String
  reference : String
deriving DecidableEq, Repr

/-- Modelled from the spec: `ETHER_TOKEN_FAKE_ADDRESS` of lib/token-utils
(not under src/), the sentinel placeholder address for the chain's native
asset. Its concrete value is immaterial to script.js, which only compares
addresses against it. -/
def ETHER_TOKEN_FAKE_ADDRESS : String := "0x0000000000000000000000000000000000000000"

/-- The hard-coded native-asset metadata constant `ETHER_DATA` of
script.js: `{ decimals: 18, name: 'Ether', symbol: 'ETH' }`. -/
structure EtherConst where
  decimals : JSVal
  name : JSVal
  symbol : JSVal

/-- The `ETHER_DATA` constant of script.js. -/
def ETHER_DATA : EtherConst :=
  { decimals := .num 18, name := .str "Ether", symbol := .str "ETH" }

/-- Embeds `loadTokenDecimals` of script.js: compute the fallback as
`tokenDataFallback(addr, 'decimals', network.type) || '0'`, then try the
external call; on rejection or a falsy result, use the fallback. -/
def loadTokenDecimals (settings : Settings) (call : Except Unit JSVal)
    (tokenAddress : String) : JSVal :=
  let fallback := jsOr (settings.fbTable tokenAddress "decimals" settings.networkType) (.str "0")
  match call with
  | .error _ => fallback
  | .ok v => if v.falsy then fallback else v

/-- Embeds `loadTokenName` of script.js: fallback default is the empty
string. -/
def loadTokenName (settings : Settings) (call : Except Unit JSVal)
    (tokenAddress : String) : JSVal :=
  let fallback := jsOr (settings.fbTable tokenAddress "name" settings.networkType) (.str "")
  match call with
  | .error _ => fallback
  | .ok v => if v.falsy then fallback else v

/-- Embeds `loadTokenSymbol` of script.js: fallback default is the empty
string. -/
def loadTokenSymbol (settings : Settings) (call : Except Unit JSVal)
    (tokenAddress : String) : JSVal :=
  let fallback := jsOr (settings.fbTable tokenAddress "symbol" settings.networkType) (.str "")
  match call with
  | .error _ => fallback
  | .ok v => if v.falsy then fallback else v

/-- Embeds `getTokenData` of script.js: run the three per-field loaders
(concurrently in the source; order-independent here) and assemble the
descriptor together with the address. -/
def getTokenData (settings : Settings) (calls : ExtCalls) (tokenAddress : String) : Token :=
  { decimals := loadTokenDecimals settings calls.decimalsCall tokenAddress
    name := loadTokenName settings calls.nameCall tokenAddress
    symbol := loadTokenSymbol settings calls.symbolCall tokenAddress
    address := tokenAddress }

/-- Embeds `marshallDate` of script.js: `parseInt(date, 10) * 1000`. -/
def marshallDate (date : Int) : Int := date * 1000

/-- Embeds `updateRequestStatus` of script.js: find the first request
whose `requestId` matches (`findIndex` with `===`), and if found replace
it in place by a copy with the new status (`Array.from` + index
assignment); if not found, log an error and return `undefined` (`none`). -/
def updateRequestStatus : List Request → String → Status → Option (List Request)
  | [], _, _ => none
  | request :: rest, requestId, nextStatus =>
    if request.requestId == requestId then
      some ({ request with status := nextStatus } :: rest)
    else
      (updateRequestStatus rest requestId nextStatus).map (fun nextRequests => request :: nextRequests)

/-- Embeds `requestRefunded` of script.js: destructure `requests` from the
state and spread the result of `updateRequestStatus` back in. If the
`requests` field is absent, `updateRequestStatus` calls `findIndex` on
`undefined` and the handler's promise rejects (`Except.error`). -/
def requestRefunded (state : StateRec) (requestId : String) : Except Unit JSState :=
  match state.requests with
  | none => .error ()
  | some requests => .ok (some { state with requests := updateRequestStatus requests requestId Status.WITHDRAWN })

/-- Embeds `requestFinalised` of script.js: same as `requestRefunded` with
target status APPROVED. -/
def requestFinalised (state : StateRec) (requestId : String) : Except Unit JSState :=
  match state.requests with
  | none => .error ()
  | some requests => .ok (some { state with requests := updateRequestStatus requests requestId Status.APPROVED })

/-- Embeds `updateConnectedAccount` of script.js: `{...state, account}`. -/
def updateConnectedAccount (state : StateRec) (account : String) : StateRec :=
  { state with account := some account }

/-- Embeds `newTokenRequest` of script.js. Inside a `try`: default the
`requests` field to `[]`, resolve both token descriptors (the sentinel
native-asset address short-circuits to `ETHER_DATA`), look up the block
timestamp, and append the new PENDING request. The only failing step an
oracle can produce is the timestamp lookup (the metadata loaders are
total); on failure the `catch` logs and falls through, so the handler
returns `undefined` (`none`). -/
def newTokenRequest (settings : Settings) (state : StateRec)
    (rv : CreateReturnValues) (oracle : CreateOracle) : JSState :=
  let requests := state.requests.getD []
  let depositData :=
    if rv.depositToken == ETHER_TOKEN_FAKE_ADDRESS then
      (ETHER_DATA.decimals, ETHER_DATA.name, ETHER_DATA.symbol)
    else
      let t := getTokenData settings oracle.depositCalls rv.depositToken
      (t.decimals, t.name, t.symbol)
  let requestData :=
    if rv.requestToken == ETHER_TOKEN_FAKE_ADDRESS then
      (ETHER_DATA.decimals, ETHER_DATA.name, ETHER_DATA.symbol)
    else
      let t := getTokenData settings oracle.requestCalls rv.requestToken
      (t.decimals, t.name, t.symbol)
  match oracle.blockResult with
  | .error _ => none
  | .ok timestamp =>
    some { state with requests := some (requests ++ [{
      requestId := rv.requestId
      requesterAddress := rv.requesterAddress
      depositToken := rv.depositToken
      depositDecimals := depositData.1
      depositName := depositData.2.1
      depositSymbol := depositData.2.2
      depositAmount := rv.depositAmount
      requestToken := rv.requestToken
      requestDecimals := requestData.1
      requestName := requestData.2.1
      requestSymbol := requestData.2.2
      requestAmount := rv.requestAmount
      requestTokenId := rv.requestTokenId
      reference := rv.reference
      status := Status.PENDING
      date := marshallDate timestamp }]) }

/-- Embeds `getAcceptedTokens` of script.js: filter out the native-asset
placeholder address, then resolve each remaining address through
`getTokenData`. The per-address external call outcomes are supplied by
the oracle `resolveCalls`. -/
def getAcceptedTokens (settings : Settings) (resolveCalls : String → ExtCalls)
    (tokens : List String) : List Token :=
  (tokens.filter (fun token => token != ETHER_TOKEN_FAKE_ADDRESS)).map
    (fun tokenAddress => getTokenData settings (resolveCalls tokenAddress) tokenAddress)

/-- The `{...ETHER_DATA, address: ETHER_TOKEN_FAKE_ADDRESS}` descriptor
unshifted by `initializeState` of script.js. -/
def etherTokenEntry : Token :=
  { decimals := ETHER_DATA.decimals, name := ETHER_DATA.name,
    symbol := ETHER_DATA.symbol, address := ETHER_TOKEN_FAKE_ADDRESS }

/-- Embeds the successful path of `initializeState` of script.js: resolve
one orgToken descriptor per token manager (the managed token addresses
come from the external `token()` calls and are supplied as
`managerTokenAddresses`), resolve the accepted-token list, unshift the
hard-coded native-asset descriptor when the discovered list contains the
placeholder address, and merge over the cached state with
`isSyncing: true`. In the source any failure of this pipeline is caught
and logged and the seed is `undefined`; the external calls are modelled
as total oracles here, so this definition captures the produced seed. -/
def initializeState (settings : Settings) (resolveCalls : String → ExtCalls)
    (managerTokenAddresses : List String) (tokens : List String)
    (cachedState : JSState) : JSState :=
  let orgTokens := managerTokenAddresses.map
    (fun minimeAddress => getTokenData settings (resolveCalls minimeAddress) minimeAddress)
  let accepted := getAcceptedTokens settings resolveCalls tokens
  let acceptedTokens :=
    if tokens.contains ETHER_TOKEN_FAKE_ADDRESS then etherTokenEntry :: accepted else accepted
  some { spreadRec cachedState with
    isSyncing := some true
    orgTokens := some orgTokens
    acceptedTokens := some acceptedTokens }

/-- The events dispatched by the reducer switch in `createStore` of
script.js. The first three kinds are the @aragon/api built-ins
(ACCOUNTS_TRIGGER, SYNC_STATUS_SYNCING, SYNC_STATUS_SYNCED), the next
three are the contract events, and `unknown` stands for any event kind
that matches none of the six `case` labels. A `tokenRequestCreated` event
carries the outcomes of its external enrichment lookups as an oracle. -/
inductive Event
  | accountsTrigger (account : String)
  | syncStatusSyncing
  | syncStatusSynced
  | tokenRequestCreated (returnValues : CreateReturnValues) (oracle : CreateOracle)
  | tokenRequestRefunded (requestId : String)
  | tokenRequestFinalised (requestId : String)
  | unknown (event : String)
deriving DecidableEq, Repr

/-- Embeds the reducer closure passed to `app.store` in `createStore` of
script.js: shallow-copy the state, switch on the event kind, and return
the handler's result; the `default` arm returns the original state. An
`Except.error` result models a handler whose promise rejects. -/
def reduce (settings : Settings) (state : JSState) (e : Event) : Except Unit JSState :=
  let nextState := spreadRec state
  match e with
  | .accountsTrigger account => .ok (some (updateConnectedAccount nextState account))
  | .syncStatusSyncing => .ok (some { nextState with isSyncing := some true })
  | .syncStatusSynced => .ok (some { nextState with isSyncing := some false })
  | .tokenRequestCreated returnValues oracle => .ok (newTokenRequest settings nextState returnValues oracle)
  | .tokenRequestRefunded requestId => requestRefunded nextState requestId
  | .tokenRequestFinalised requestId => requestFinalised nextState requestId
  | .unknown _ => .ok state

/-- Applies a sequence of events in log order, one at a time, stopping at
the first handler rejection (per the spec's ordering model, event N+1 is
applied only after event N completed). -/
def applyEvents (settings : Settings) (state : JSState) : List Event → Except Unit JSState
  | [] => .ok state
  | e :: es =>
    match reduce settings state e with
    | .ok nextState => applyEvents settings nextState es
    | .error u => .error u

/-- The first request in the state carrying the given `requestId`, as
`findIndex`-based lookup in script.js would locate it; `none` when the
state or its `requests` field is absent or no entry matches. -/
def firstRequestWith (state : JSState) (requestId : String) : Option Request :=
  match state.bind StateRec.requests with
  | none => none
  | some requests => requests.find? (fun request => request.requestId == requestId)

/-- The sequence of `requestId` keys of the state's requests, empty when
the state or its `requests` field is absent. -/
def requestIdsOf (state : JSState) : List String :=
  match state.bind StateRec.requests with
  | none => []
  | some requests => requests.map (fun request => request.requestId)

/-- The `requestId` keys carried by the `TokenRequestCreated` events of an
event sequence, in order. -/
def createdIds : List Event → List String
  | [] => []
  | Event.tokenRequestCreated rv _ :: es => rv.requestId :: createdIds es
  | _ :: es => createdIds es

/-- True unless the event is a `TokenRequestCreated` whose block-timestamp
enrichment lookup fails. -/
def enrichOk : Event → Bool
  | Event.tokenRequestCreated _ oracle => oracle.blockResult.isOk
  | _ => true

/-
Concrete fixtures used by witnesses and counterexamples.
-/

/-- A fallback table with no entries. -/
def fbt0 : FallbackTable := fun _ _ _ => none

/-- Settings with the empty fallback table on the main network. -/
def settings0 : Settings := { fbTable := fbt0, networkType := "main" }

/-- Metadata call outcomes that all resolve to truthy values. -/
def callsOk : ExtCalls :=
  { decimalsCall := .ok (.str "18"), nameCall := .ok (.str "Tok"), symbolCall := .ok (.str "TKN") }

/-- A per-address oracle that always answers with `callsOk`. -/
def resolve0 : String → ExtCalls := fun _ => callsOk

/-- A creation oracle whose every external lookup succeeds. -/
def oracleOk : CreateOracle :=
  { depositCalls := callsOk, requestCalls := callsOk, blockResult := .ok 1000 }

/-- A creation oracle whose block-timestamp lookup rejects. -/
def oracleFail : CreateOracle :=
  { depositCalls := callsOk, requestCalls := callsOk, blockResult := .error () }

/-- Payload of a creation event with requestId "1". -/
def rv1 : CreateReturnValues :=
  { requestId := "1", requesterAddress := "0xRA", depositToken := "0xD",
    depositAmount := "100", requestToken := "0xR", requestAmount := "5",
    requestTokenId := "0", reference := "r" }

/-- Payload of a creation event with requestId "2". -/
def rv2 : CreateReturnValues := { rv1 with requestId := "2" }

/-- The request record produced by applying `rv1` with `oracleOk` under
`settings0`. -/
def req1P : Request :=
  { requestId := "1", requesterAddress := "0xRA", depositToken := "0xD",
    depositDecimals := .str "18", depositName := .str "Tok", depositSymbol := .str "TKN",
    depositAmount := "100", requestToken := "0xR",
    requestDecimals := .str "18", requestName := .str "Tok", requestSymbol := .str "TKN",
    requestAmount := "5", requestTokenId := "0", reference := "r",
    status := Status.PENDING, date := 1000000 }

/-- The request record `req1P` after finalisation. -/
def req1A : Request := { req1P with status := Status.APPROVED }

/-- The descriptor resolved for address "0xA" under `settings0`/`callsOk`. -/
def tokA : Token :=
  { decimals := .str "18", name := .str "Tok", symbol := .str "TKN", address := "0xA" }

/-- The bootstrap seed produced from no token managers and the accepted
token list ["0xA"], with no cached state: its `requests` field is absent. -/
def seed0 : JSState := initializeState settings0 resolve0 [] ["0xA"] none

/-- A state holding exactly one PENDING request with id "1". -/
def stOne : StateRec :=
  { account := none, isSyncing := some false, orgTokens := some [],
    acceptedTokens := some [], requests := some [req1P] }

/-- A state with non-empty orgTokens and acceptedTokens. -/
def stOrg : StateRec :=
  { account := none, isSyncing := some false, orgTokens := some [tokA],
    acceptedTokens := some [tokA], requests := some [] }

/-- The reachable state with request "1" APPROVED, produced from `seed0`
by one creation and one finalisation. -/
def stApproved0 : JSState :=
  some { account := none, isSyncing := some true, orgTokens := some [],
         acceptedTokens := some [tokA], requests := some [req1A] }

/-- The state `stApproved0` after a further refund of request "1". -/
def stWithdrawn0 : JSState :=
  some { account := none, isSyncing := some true, orgTokens := some [],
         acceptedTokens := some [tokA], requests := some [{ req1P with status := Status.WITHDRAWN }] }

/-- The state reached from an empty seed by two creation events that both
carry requestId "1". -/
def stDup : JSState :=
  some { account := none, isSyncing := some true, orgTokens := some [],
         acceptedTokens := some [], requests := some [req1P, req1P] }

/-- The request record produced by applying `rv2` with `oracleOk` under
`settings0`. -/
def req2P : Request := { req1P with requestId := "2" }

/-- The state reached from an empty seed by creating request "1",
finalising it, and creating request "2". -/
def stTwo : JSState :=
  some { account := none, isSyncing := some true, orgTokens := some [],
         acceptedTokens := some [], requests := some [req1A, req2P] }

/-- Boolean test that a fallback-table entry, when present, is truthy. -/
def entryTruthy : Option JSVal → Bool
  | some v => !v.falsy
  | none => true

/-- Modelled from the spec: the Metadata Resolver's per-field fallback
policy (spec section 4.3) — if the external call raises an error, or
returns a falsy/empty value, substitute the value from the static
fallback table; if no fallback entry exists, use the stated per-field
default. -/
def specFieldResult (call : Except Unit JSVal) (entry : Option JSVal) (dflt : JSVal) : JSVal :=
  match call with
  | .error _ =>
    match entry with
    | some v => v
    | none => dflt
  | .ok v =>
    if v.falsy then
      match entry with
      | some w => w
      | none => dflt
    else v

/-- A fallback table holding exactly one entry: symbol "FOO" for address
"0xAAA" on network "rinkeby". -/
def fbt1 : FallbackTable := fun addr field networkType =>
  if addr == "0xAAA" && field == "symbol" && networkType == "rinkeby" then
    some (.str "FOO")
  else none

/-- Settings carrying `fbt1` on the rinkeby network. -/
def settings1 : Settings := { fbTable := fbt1, networkType := "rinkeby" }

/-- Metadata call outcomes that all reject. -/
def callsErr : ExtCalls :=
  { decimalsCall := .error (), nameCall := .error (), symbolCall := .error () }

/-
Claim theorems, counterexamples and witnesses.
-/

/-- Claim C5: for every state and every event whose kind is not one of the
six recognized kinds, the reducer returns the input state itself
unchanged and does not throw: the `default` arm of the switch in
`createStore` returns `state`. -/
theorem reduce_unknown_event_is_identity (settings : Settings) (state : JSState) (kind : String) :
    reduce settings state (Event.unknown kind) = .ok state := rfl

/-- Claim C1 counterexample: at the reachable state `stApproved0` (built
from the bootstrap seed by a creation and a finalisation, so request "1"
is APPROVED), a later `TokenRequestRefunded` event does NOT leave the
state unchanged: it overwrites the request's status with WITHDRAWN. -/
theorem transition_on_approved_changes_state :
    applyEvents settings0 seed0
        [Event.tokenRequestCreated rv1 oracleOk, Event.tokenRequestFinalised "1"] = .ok stApproved0
    ∧ firstRequestWith stApproved0 "1" = some req1A
    ∧ req1A.status = Status.APPROVED
    ∧ reduce settings0 stApproved0 (Event.tokenRequestRefunded "1") = .ok stWithdrawn0
    ∧ stWithdrawn0 ≠ stApproved0
    ∧ firstRequestWith stWithdrawn0 "1" = some { req1A with status := Status.WITHDRAWN } := by
  refine ⟨by decide, by decide, by decide, by decide, by decide, by decide⟩

/-- Claim C2: evaluation of the code at the failing input. Applying a
`TokenRequestRefunded` event whose requestId "99" matches no entry does
NOT leave the `requests` sequence unchanged: the `else` branch of
`updateRequestStatus` logs and returns `undefined`, so the handler writes
`requests: undefined`, dropping every request record. -/
theorem refund_unknown_id_clears_requests :
    reduce settings0 (some stOne) (Event.tokenRequestRefunded "99")
        = .ok (some { stOne with requests := none })
    ∧ ({ stOne with requests := none }).requests ≠ stOne.requests
    ∧ (some { stOne with requests := none } : JSState) ≠ some stOne := by
  refine ⟨by decide, by decide, by decide⟩

/-- Claim C3: evaluation of the code at the failing input. When the
block-timestamp enrichment lookup of a `TokenRequestCreated` event fails,
the `catch` in `newTokenRequest` logs and falls through, so the handler
returns `undefined` rather than the input state: the whole state is
discarded, not left unchanged (no partial request is appended, but only
because nothing at all survives). -/
theorem creation_enrichment_failure_returns_undefined :
    reduce settings0 (some stOne) (Event.tokenRequestCreated rv2 oracleFail) = .ok none
    ∧ (none : JSState) ≠ some stOne := by
  refine ⟨by decide, by decide⟩

/-- Claim C4 counterexample: applying a `TokenRequestRefunded` event to
the bootstrap seed `seed0`, whose `requests` field is absent, makes the
handler throw (a TypeError from `findIndex` on `undefined`) past the
reducer boundary, contradicting the claim that the reducer never
throws. -/
theorem refund_on_missing_requests_field_throws :
    reduce settings0 seed0 (Event.tokenRequestRefunded "1") = .error () := by decide

/-- Claim C8 counterexample: applying two `TokenRequestCreated` events
that both carry requestId "1" to the bootstrap seed yields a reachable
state whose `requests` sequence holds two entries with the same
requestId: `newTokenRequest` never checks uniqueness. -/
theorem duplicate_created_ids_break_uniqueness :
    applyEvents settings0 (initializeState settings0 resolve0 [] [] none)
        [Event.tokenRequestCreated rv1 oracleOk, Event.tokenRequestCreated rv1 oracleOk] = .ok stDup
    ∧ requestIdsOf stDup = ["1", "1"]
    ∧ ¬ (requestIdsOf stDup).Nodup := by
  refine ⟨by decide, by decide, by decide⟩

/-- Claim C10 counterexample: a `TokenRequestCreated` event whose
enrichment fails replaces the whole state with `undefined`, so the
`orgTokens` and `acceptedTokens` fields of the resulting state are NOT
identical to those of the input state. -/
theorem creation_failure_drops_org_tokens :
    reduce settings0 (some stOrg) (Event.tokenRequestCreated rv2 oracleFail) = .ok none
    ∧ (none : JSState).bind StateRec.orgTokens ≠ (some stOrg : JSState).bind StateRec.orgTokens
    ∧ (none : JSState).bind StateRec.acceptedTokens ≠ (some stOrg : JSState).bind StateRec.acceptedTokens := by
  refine ⟨by decide, by decide, by decide⟩

/-- Shallow-copying the state preserves the `requests` field. -/
theorem spreadRec_requests (s : JSState) :
    (spreadRec s).requests = s.bind StateRec.requests := by
  cases s <;> rfl

/-- Shallow-copying the state preserves the `orgTokens` field. -/
theorem spreadRec_orgTokens (s : JSState) :
    (spreadRec s).orgTokens = s.bind StateRec.orgTokens := by
  cases s <;> rfl

/-- Shallow-copying the state preserves the `acceptedTokens` field. -/
theorem spreadRec_acceptedTokens (s : JSState) :
    (spreadRec s).acceptedTokens = s.bind StateRec.acceptedTokens := by
  cases s <;> rfl

/-- When some request carries the id, `updateRequestStatus` replaces
exactly the first matching request, at its position, by a copy with the
new status, independently of which status is written. -/
theorem updateRequestStatus_found (rs : List Request) (rid : String)
    (hfound : ∃ r, r ∈ rs ∧ r.requestId = rid) :
    ∃ i r, rs[i]? = some r ∧ r.requestId = rid
      ∧ ∀ ns : Status, updateRequestStatus rs rid ns = some (rs.set i { r with status := ns }) := by
  induction rs with
  | nil => simp at hfound
  | cons a rest ih =>
    by_cases hid : a.requestId = rid
    · refine ⟨0, a, by simp, hid, fun ns => ?_⟩
      simp [updateRequestStatus, hid]
    · have hrest : ∃ r, r ∈ rest ∧ r.requestId = rid := by
        obtain ⟨r, hr, hrid⟩ := hfound
        cases hr with
        | head => exact absurd hrid hid
        | tail _ hmem => exact ⟨r, hmem, hrid⟩
      obtain ⟨i, r, hget, hrid, hupd⟩ := ih hrest
      refine ⟨i + 1, r, by simpa using hget, hrid, fun ns => ?_⟩
      simp [updateRequestStatus, hid, hupd ns]

/-- Whatever record `find?` locates in a list updated by
`updateRequestStatus` was already found at the same position in the old
list, either untouched or with only its status overwritten. -/
theorem updateRequestStatus_find_some (rs : List Request) (rid id : String) (ns : Status)
    (rs2 : List Request) (h : updateRequestStatus rs rid ns = some rs2)
    (r2 : Request) (h2 : rs2.find? (fun r => r.requestId == id) = some r2) :
    ∃ r1, rs.find? (fun r => r.requestId == id) = some r1
      ∧ (r2 = r1 ∨ r2 = { r1 with status := ns }) := by
  induction rs generalizing rs2 with
  | nil => simp [updateRequestStatus] at h
  | cons a rest ih =>
    by_cases hid : a.requestId = rid
    · have hrs2 : rs2 = { a with status := ns } :: rest := by
        have hbeq : (a.requestId == rid) = true := by simp [hid]
        simp only [updateRequestStatus, hbeq, if_true] at h
        exact (Option.some.inj h).symm
      subst hrs2
      by_cases hm : a.requestId = id
      · rw [List.find?_cons_of_pos _ (by simp [hm])] at h2
        rw [List.find?_cons_of_pos _ (by simp [hm])]
        exact ⟨a, rfl, Or.inr (by injection h2 with hh; exact hh.symm)⟩
      · rw [List.find?_cons_of_neg _ (by simp [hm])] at h2
        rw [List.find?_cons_of_neg _ (by simp [hm])]
        exact ⟨r2, h2, Or.inl rfl⟩
    · obtain ⟨rest2, hrest, hr⟩ : ∃ rest2, updateRequestStatus rest rid ns = some rest2 ∧ a :: rest2 = rs2 := by
        simpa [updateRequestStatus, hid] using h
      subst hr
      by_cases hm : a.requestId = id
      · rw [List.find?_cons_of_pos _ (by simp [hm])] at h2
        rw [List.find?_cons_of_pos _ (by simp [hm])]
        exact ⟨a, rfl, Or.inl (by injection h2 with hh; exact hh.symm)⟩
      · rw [List.find?_cons_of_neg _ (by simp [hm])] at h2
        rw [List.find?_cons_of_neg _ (by simp [hm])]
        exact ih rest2 hrest h2

/-- Claim C9: when the state's requests contain an entry with the given
requestId, a `TokenRequestRefunded` or `TokenRequestFinalised` event for
that id produces a requests sequence of the same length in which the
matched entry is replaced, at the same position, by a record identical in
every field except `status` (WITHDRAWN resp. APPROVED), and every other
entry is unchanged. -/
theorem transition_found_replaces_in_place (settings : Settings) (st : StateRec)
    (rs : List Request) (rid : String)
    (hrs : st.requests = some rs) (hfound : ∃ r, r ∈ rs ∧ r.requestId = rid) :
    ∃ i r, rs[i]? = some r ∧ r.requestId = rid
      ∧ reduce settings (some st) (Event.tokenRequestRefunded rid)
          = .ok (some { st with requests := some (rs.set i { r with status := Status.WITHDRAWN }) })
      ∧ reduce settings (some st) (Event.tokenRequestFinalised rid)
          = .ok (some { st with requests := some (rs.set i { r with status := Status.APPROVED }) })
      ∧ (∀ ns : Status, (rs.set i { r with status := ns }).length = rs.length)
      ∧ (∀ ns : Status, ∀ j, j ≠ i → (rs.set i { r with status := ns })[j]? = rs[j]?) := by
  obtain ⟨i, r, hget, hrid, hupd⟩ := updateRequestStatus_found rs rid hfound
  refine ⟨i, r, hget, hrid, ?_, ?_, fun ns => by simp, fun ns j hj => ?_⟩
  · simp [reduce, requestRefunded, spreadRec, hrs, hupd Status.WITHDRAWN]
  · simp [reduce, requestFinalised, spreadRec, hrs, hupd Status.APPROVED]
  · rw [List.getElem?_set_ne (Ne.symm hj)]

/-- Claim C9 witness: the single PENDING request of `stOne` is replaced in
place by both transition events. -/
theorem transition_found_replaces_in_place_witness :
    ∃ i r, ([req1P] : List Request)[i]? = some r ∧ r.requestId = "1"
      ∧ reduce settings0 (some stOne) (Event.tokenRequestRefunded "1")
          = .ok (some { stOne with requests := some ([req1P].set i { r with status := Status.WITHDRAWN }) })
      ∧ reduce settings0 (some stOne) (Event.tokenRequestFinalised "1")
          = .ok (some { stOne with requests := some ([req1P].set i { r with status := Status.APPROVED }) })
      ∧ (∀ ns : Status, ([req1P].set i { r with status := ns }).length = [req1P].length)
      ∧ (∀ ns : Status, ∀ j, j ≠ i → ([req1P].set i { r with status := ns })[j]? = [req1P][j]?) :=
  transition_found_replaces_in_place settings0 stOne [req1P] "1" rfl ⟨req1P, by decide, rfl⟩

/-- Claim C1 (amended): once a request's status is APPROVED or WITHDRAWN,
a `TokenRequestRefunded` or `TokenRequestFinalised` event never moves it
back to PENDING — though, contrary to the original claim, such an event
targeting the request does overwrite its status with the event's target
status rather than leaving the state unchanged. -/
theorem transition_event_never_restores_pending (settings : Settings) (s s2 : JSState)
    (rid id : String) (e : Event)
    (he : e = Event.tokenRequestRefunded rid ∨ e = Event.tokenRequestFinalised rid)
    (hred : reduce settings s e = .ok s2)
    (r1 r2 : Request)
    (h1 : firstRequestWith s id = some r1) (hnp : r1.status ≠ Status.PENDING)
    (h2 : firstRequestWith s2 id = some r2) :
    r2.status ≠ Status.PENDING := by
  have hcore : ∀ ns : Status, ns ≠ Status.PENDING →
      ∀ rs : List Request, (spreadRec s).requests = some rs →
      s2 = some { spreadRec s with requests := updateRequestStatus rs rid ns } →
      r2.status ≠ Status.PENDING := by
    intro ns hns rs hrs hs2
    have h1' : rs.find? (fun r => r.requestId == id) = some r1 := by
      have hb : s.bind StateRec.requests = some rs := by rw [← spreadRec_requests]; exact hrs
      unfold firstRequestWith at h1
      rw [hb] at h1
      exact h1
    subst hs2
    unfold firstRequestWith at h2
    simp only [Option.bind_some] at h2
    cases hupd : updateRequestStatus rs rid ns with
    | none => rw [hupd] at h2; exact absurd h2 (by simp)
    | some rs2 =>
      rw [hupd] at h2
      obtain ⟨rr, hfind, hcase⟩ := updateRequestStatus_find_some rs rid id ns rs2 hupd r2 h2
      rw [h1'] at hfind
      injection hfind with hrr
      subst hrr
      cases hcase with
      | inl hh => rw [hh]; exact hnp
      | inr hh => rw [hh]; simpa using hns
  cases he with
  | inl hre =>
    subst hre
    simp only [reduce, requestRefunded] at hred
    cases hrs : (spreadRec s).requests with
    | none => rw [hrs] at hred; exact absurd hred (by simp)
    | some rs =>
      rw [hrs] at hred
      exact hcore Status.WITHDRAWN (by simp) rs hrs (Except.ok.inj hred).symm
  | inr hre =>
    subst hre
    simp only [reduce, requestFinalised] at hred
    cases hrs : (spreadRec s).requests with
    | none => rw [hrs] at hred; exact absurd hred (by simp)
    | some rs =>
      rw [hrs] at hred
      exact hcore Status.APPROVED (by simp) rs hrs (Except.ok.inj hred).symm

/-- Claim C1 witness: refunding the APPROVED request of `stApproved0`
leaves it non-PENDING (WITHDRAWN). -/
theorem transition_event_never_restores_pending_witness :
    ({ req1P with status := Status.WITHDRAWN } : Request).status ≠ Status.PENDING :=
  transition_event_never_restores_pending settings0 stApproved0 stWithdrawn0 "1" "1"
    (Event.tokenRequestRefunded "1") (Or.inl rfl) (by decide) req1A
    { req1P with status := Status.WITHDRAWN } (by decide) (by decide) (by decide)

/-- Claim C4 (amended): the reducer throws past the reducer boundary in
exactly one situation — a `TokenRequestRefunded` or `TokenRequestFinalised`
event applied to a state whose `requests` field is absent (as in the
bootstrap seed), where the status-update helper's lookup on the absent
sequence throws; for every other state/event pair it never throws. -/
theorem reduce_error_characterization (settings : Settings) (s : JSState) (e : Event) :
    reduce settings s e = .error ()
      ↔ ((spreadRec s).requests = none
          ∧ ∃ rid, e = Event.tokenRequestRefunded rid ∨ e = Event.tokenRequestFinalised rid) := by
  cases e with
  | accountsTrigger a => simp [reduce]
  | syncStatusSyncing => simp [reduce]
  | syncStatusSynced => simp [reduce]
  | tokenRequestCreated rv o => simp [reduce]
  | tokenRequestRefunded rid =>
    cases hrs : (spreadRec s).requests with
    | none =>
      simp only [reduce, requestRefunded, hrs]
      exact iff_of_true trivial ⟨trivial, rid, Or.inl rfl⟩
    | some rs => simp [reduce, requestRefunded, hrs]
  | tokenRequestFinalised rid =>
    cases hrs : (spreadRec s).requests with
    | none =>
      simp only [reduce, requestFinalised, hrs]
      exact iff_of_true trivial ⟨trivial, rid, Or.inr rfl⟩
    | some rs => simp [reduce, requestFinalised, hrs]
  | unknown k => simp [reduce]

/-- Claim C10 (amended): every successfully applied event preserves the
`orgTokens` and `acceptedTokens` fields, except a `TokenRequestCreated`
event whose enrichment fails, which replaces the whole state with
`undefined` and so loses both fields. -/
theorem org_and_accepted_tokens_preserved (settings : Settings) (s s2 : JSState) (e : Event)
    (hred : reduce settings s e = .ok s2) (hok : enrichOk e = true) :
    s2.bind StateRec.orgTokens = s.bind StateRec.orgTokens
    ∧ s2.bind StateRec.acceptedTokens = s.bind StateRec.acceptedTokens := by
  cases e with
  | accountsTrigger a =>
    simp only [reduce] at hred
    have h := Except.ok.inj hred
    subst h
    exact ⟨spreadRec_orgTokens s, spreadRec_acceptedTokens s⟩
  | syncStatusSyncing =>
    simp only [reduce] at hred
    have h := Except.ok.inj hred
    subst h
    exact ⟨spreadRec_orgTokens s, spreadRec_acceptedTokens s⟩
  | syncStatusSynced =>
    simp only [reduce] at hred
    have h := Except.ok.inj hred
    subst h
    exact ⟨spreadRec_orgTokens s, spreadRec_acceptedTokens s⟩
  | tokenRequestCreated rv o =>
    simp only [reduce] at hred
    have h := Except.ok.inj hred
    subst h
    cases hbr : o.blockResult with
    | error u => simp [enrichOk, hbr, Except.isOk, Except.toBool] at hok
    | ok ts =>
      simp only [newTokenRequest, hbr]
      exact ⟨spreadRec_orgTokens s, spreadRec_acceptedTokens s⟩
  | tokenRequestRefunded rid =>
    simp only [reduce, requestRefunded] at hred
    cases hrs : (spreadRec s).requests with
    | none => rw [hrs] at hred; exact absurd hred (by simp)
    | some rs =>
      rw [hrs] at hred
      have h := Except.ok.inj hred
      subst h
      exact ⟨spreadRec_orgTokens s, spreadRec_acceptedTokens s⟩
  | tokenRequestFinalised rid =>
    simp only [reduce, requestFinalised] at hred
    cases hrs : (spreadRec s).requests with
    | none => rw [hrs] at hred; exact absurd hred (by simp)
    | some rs =>
      rw [hrs] at hred
      have h := Except.ok.inj hred
      subst h
      exact ⟨spreadRec_orgTokens s, spreadRec_acceptedTokens s⟩
  | unknown k =>
    simp only [reduce] at hred
    have h := Except.ok.inj hred
    subst h
    exact ⟨rfl, rfl⟩

/-- Claim C10 witness: a sync event on the token-holding state `stOrg`
preserves its `orgTokens` and `acceptedTokens`. -/
theorem org_and_accepted_tokens_preserved_witness :
    (some { stOrg with isSyncing := some true } : JSState).bind StateRec.orgTokens
        = (some stOrg : JSState).bind StateRec.orgTokens
    ∧ (some { stOrg with isSyncing := some true } : JSState).bind StateRec.acceptedTokens
        = (some stOrg : JSState).bind StateRec.acceptedTokens :=
  org_and_accepted_tokens_preserved settings0 (some stOrg)
    (some { stOrg with isSyncing := some true }) Event.syncStatusSyncing (by decide) (by decide)

/-- A successful `updateRequestStatus` preserves the sequence of request
ids exactly. -/
theorem updateRequestStatus_map_requestId (rs : List Request) (rid : String) (ns : Status)
    (rs2 : List Request) (h : updateRequestStatus rs rid ns = some rs2) :
    rs2.map (fun r => r.requestId) = rs.map (fun r => r.requestId) := by
  induction rs generalizing rs2 with
  | nil => simp [updateRequestStatus] at h
  | cons a rest ih =>
    by_cases hid : a.requestId = rid
    · have hbeq : (a.requestId == rid) = true := by simp [hid]
      simp only [updateRequestStatus, hbeq, if_true] at h
      rw [← Option.some.inj h]
      simp
    · obtain ⟨rest2, hrest, hr⟩ : ∃ rest2, updateRequestStatus rest rid ns = some rest2 ∧ a :: rest2 = rs2 := by
        simpa [updateRequestStatus, hid] using h
      subst hr
      simp [ih rest2 hrest]

/-- Splitting the created-id sequence of an event log at its head. -/
theorem createdIds_cons (e : Event) (es : List Event) :
    createdIds (e :: es) = createdIds [e] ++ createdIds es := by
  cases e <;> rfl

/-- Evaluating the request-id sequence of a present state object. -/
theorem requestIdsOf_some (st : StateRec) :
    requestIdsOf (some st) = (st.requests.getD []).map (fun r => r.requestId) := by
  cases hrs : st.requests with
  | none => simp [requestIdsOf, hrs]
  | some rs => simp [requestIdsOf, hrs]

/-- Evaluating the request-id sequence through the state's `requests`
field. -/
theorem requestIdsOf_eq (s : JSState) :
    requestIdsOf s = ((s.bind StateRec.requests).getD []).map (fun r => r.requestId) := by
  unfold requestIdsOf
  cases s.bind StateRec.requests <;> simp

/-- Two states with the same `requests` content have the same request-id
sequence. -/
theorem requestIdsOf_congr (st : StateRec) (s : JSState)
    (h : st.requests = s.bind StateRec.requests) :
    requestIdsOf (some st) = requestIdsOf s := by
  rw [requestIdsOf_some, requestIdsOf_eq, h]

/-- `newTokenRequest` either fails (returning `undefined`) or appends one
request carrying the event's requestId to the end of the sequence. -/
theorem newTokenRequest_requests (settings : Settings) (st : StateRec)
    (rv : CreateReturnValues) (o : CreateOracle) :
    newTokenRequest settings st rv o = none
    ∨ ∃ req : Request, req.requestId = rv.requestId
        ∧ newTokenRequest settings st rv o
            = some { st with requests := some ((st.requests.getD []) ++ [req]) } := by
  unfold newTokenRequest
  cases o.blockResult with
  | error u => exact Or.inl rfl
  | ok ts => exact Or.inr ⟨_, rfl, rfl⟩

/-- One reduction step: the request ids of the output state form a
sublist of the input's request ids followed by the created ids of the
step (a creation appends its id; a transition preserves or clears the
sequence; everything else leaves it unchanged). -/
theorem reduce_request_ids_sublist (settings : Settings) (s s2 : JSState) (e : Event)
    (hred : reduce settings s e = .ok s2) :
    List.Sublist (requestIdsOf s2) (requestIdsOf s ++ createdIds [e]) := by
  cases e with
  | accountsTrigger a =>
    simp only [reduce] at hred
    have h := Except.ok.inj hred
    subst h
    rw [requestIdsOf_congr (updateConnectedAccount (spreadRec s) a) s (spreadRec_requests s)]
    exact List.sublist_append_left _ _
  | syncStatusSyncing =>
    simp only [reduce] at hred
    have h := Except.ok.inj hred
    subst h
    rw [requestIdsOf_congr { spreadRec s with isSyncing := some true } s (spreadRec_requests s)]
    exact List.sublist_append_left _ _
  | syncStatusSynced =>
    simp only [reduce] at hred
    have h := Except.ok.inj hred
    subst h
    rw [requestIdsOf_congr { spreadRec s with isSyncing := some false } s (spreadRec_requests s)]
    exact List.sublist_append_left _ _
  | tokenRequestCreated rv o =>
    simp only [reduce] at hred
    have h := Except.ok.inj hred
    subst h
    rcases newTokenRequest_requests settings (spreadRec s) rv o with hnone | ⟨req, hreq, heq⟩
    · rw [hnone]
      exact List.nil_sublist _
    · rw [heq, requestIdsOf_some]
      have hA : (({ spreadRec s with
            requests := some ((spreadRec s).requests.getD [] ++ [req]) } : StateRec).requests.getD [])
          = (spreadRec s).requests.getD [] ++ [req] := rfl
      rw [hA, List.map_append, requestIdsOf_eq s, ← spreadRec_requests s]
      simp [hreq, createdIds]
  | tokenRequestRefunded rid =>
    simp only [reduce, requestRefunded] at hred
    cases hrs : (spreadRec s).requests with
    | none => rw [hrs] at hred; exact absurd hred (by simp)
    | some rs =>
      rw [hrs] at hred
      have h := Except.ok.inj hred
      subst h
      rw [requestIdsOf_some]
      have hP : ({ spreadRec s with
            requests := updateRequestStatus rs rid Status.WITHDRAWN } : StateRec).requests
          = updateRequestStatus rs rid Status.WITHDRAWN := rfl
      rw [hP]
      cases hupd : updateRequestStatus rs rid Status.WITHDRAWN with
      | none => exact List.nil_sublist _
      | some rs2 =>
        have hg : ((some rs2).getD ([] : List Request)) = rs2 := rfl
        rw [hg, updateRequestStatus_map_requestId rs rid Status.WITHDRAWN rs2 hupd,
          requestIdsOf_eq s, ← spreadRec_requests s, hrs]
        exact List.sublist_append_left _ _
  | tokenRequestFinalised rid =>
    simp only [reduce, requestFinalised] at hred
    cases hrs : (spreadRec s).requests with
    | none => rw [hrs] at hred; exact absurd hred (by simp)
    | some rs =>
      rw [hrs] at hred
      have h := Except.ok.inj hred
      subst h
      rw [requestIdsOf_some]
      have hP : ({ spreadRec s with
            requests := updateRequestStatus rs rid Status.APPROVED } : StateRec).requests
          = updateRequestStatus rs rid Status.APPROVED := rfl
      rw [hP]
      cases hupd : updateRequestStatus rs rid Status.APPROVED with
      | none => exact List.nil_sublist _
      | some rs2 =>
        have hg : ((some rs2).getD ([] : List Request)) = rs2 := rfl
        rw [hg, updateRequestStatus_map_requestId rs rid Status.APPROVED rs2 hupd,
          requestIdsOf_eq s, ← spreadRec_requests s, hrs]
        exact List.sublist_append_left _ _
  | unknown k =>
    simp only [reduce] at hred
    have h := Except.ok.inj hred
    subst h
    exact List.sublist_append_left _ _

/-- Over a whole event log, the request ids of the final state form a
sublist of the starting ids followed by the created ids of the log. -/
theorem applyEvents_request_ids_sublist (settings : Settings) (es : List Event) :
    ∀ s s2 : JSState, applyEvents settings s es = .ok s2 →
      List.Sublist (requestIdsOf s2) (requestIdsOf s ++ createdIds es) := by
  induction es with
  | nil =>
    intro s s2 h
    have := Except.ok.inj h
    subst this
    exact List.sublist_append_left _ _
  | cons e es ih =>
    intro s s2 h
    simp only [applyEvents] at h
    cases hred : reduce settings s e with
    | error u => rw [hred] at h; exact absurd h (by simp)
    | ok s1 =>
      rw [hred] at h
      have h1 := reduce_request_ids_sublist settings s s1 e hred
      have h2 := ih s1 s2 h
      have h3 : List.Sublist (requestIdsOf s1 ++ createdIds es)
          ((requestIdsOf s ++ createdIds [e]) ++ createdIds es) :=
        List.Sublist.append h1 (List.Sublist.refl _)
      have h4 := h2.trans h3
      rw [List.append_assoc, ← createdIds_cons] at h4
      exact h4


/-- Claim C8 (amended): every state reachable from the bootstrap seed has
pairwise-distinct requestIds across `requests`, provided the
`TokenRequestCreated` events of the log carry pairwise-distinct
requestIds (uniqueness is otherwise not enforced by the reducer). -/
theorem request_ids_nodup_of_distinct_created_ids (settings : Settings)
    (resolveCalls : String → ExtCalls) (managerTokenAddresses tokens : List String)
    (es : List Event) (s2 : JSState)
    (h : applyEvents settings
        (initializeState settings resolveCalls managerTokenAddresses tokens none) es = .ok s2)
    (hd : (createdIds es).Nodup) : (requestIdsOf s2).Nodup := by
  have hsub := applyEvents_request_ids_sublist settings es _ s2 h
  have hids : requestIdsOf
      (initializeState settings resolveCalls managerTokenAddresses tokens none) = [] := rfl
  rw [hids, List.nil_append] at hsub
  exact hd.sublist hsub

/-- Claim C8 witness: a log of two creations with distinct ids "1" and
"2" (and a finalisation between them) reaches `stTwo`, whose request ids
are pairwise distinct. -/
theorem request_ids_nodup_of_distinct_created_ids_witness :
    (requestIdsOf stTwo).Nodup :=
  request_ids_nodup_of_distinct_created_ids settings0 resolve0 [] [] [Event.tokenRequestCreated rv1 oracleOk, Event.tokenRequestFinalised "1", Event.tokenRequestCreated rv2 oracleOk] stTwo (by decide) (by decide)

/-- On a table entry that is truthy when present, `entry || d` returns
the entry when present and the default otherwise. -/
theorem jsOr_of_entryTruthy (entry : Option JSVal) (dflt : JSVal)
    (h : entryTruthy entry = true) :
    jsOr entry dflt = match entry with | some v => v | none => dflt := by
  cases entry with
  | none => rfl
  | some v =>
    simp [entryTruthy] at h
    simp [jsOr, h]

/-- The name loader implements the spec's per-field fallback policy. -/
theorem loadTokenName_eq_spec (settings : Settings) (call : Except Unit JSVal) (addr : String)
    (h : entryTruthy (settings.fbTable addr "name" settings.networkType) = true) :
    loadTokenName settings call addr
      = specFieldResult call (settings.fbTable addr "name" settings.networkType) (.str "") := by
  cases hE : settings.fbTable addr "name" settings.networkType with
  | none => cases call <;> simp [loadTokenName, specFieldResult, jsOr, hE]
  | some v =>
    have hv : v.falsy = false := by
      rw [hE] at h
      simpa [entryTruthy] using h
    cases call <;> simp [loadTokenName, specFieldResult, jsOr, hE, hv]

/-- The symbol loader implements the spec's per-field fallback policy. -/
theorem loadTokenSymbol_eq_spec (settings : Settings) (call : Except Unit JSVal) (addr : String)
    (h : entryTruthy (settings.fbTable addr "symbol" settings.networkType) = true) :
    loadTokenSymbol settings call addr
      = specFieldResult call (settings.fbTable addr "symbol" settings.networkType) (.str "") := by
  cases hE : settings.fbTable addr "symbol" settings.networkType with
  | none => cases call <;> simp [loadTokenSymbol, specFieldResult, jsOr, hE]
  | some v =>
    have hv : v.falsy = false := by
      rw [hE] at h
      simpa [entryTruthy] using h
    cases call <;> simp [loadTokenSymbol, specFieldResult, jsOr, hE, hv]

/-- The decimals loader implements the spec's per-field fallback policy,
with default "0". -/
theorem loadTokenDecimals_eq_spec (settings : Settings) (call : Except Unit JSVal) (addr : String)
    (h : entryTruthy (settings.fbTable addr "decimals" settings.networkType) = true) :
    loadTokenDecimals settings call addr
      = specFieldResult call (settings.fbTable addr "decimals" settings.networkType) (.str "0") := by
  cases hE : settings.fbTable addr "decimals" settings.networkType with
  | none => cases call <;> simp [loadTokenDecimals, specFieldResult, jsOr, hE]
  | some v =>
    have hv : v.falsy = false := by
      rw [hE] at h
      simpa [entryTruthy] using h
    cases call <;> simp [loadTokenDecimals, specFieldResult, jsOr, hE, hv]

/-- Claim C6: the metadata resolver is total — it always returns a
complete descriptor carrying the queried address — and each of the three
fields independently follows the fallback policy: if the external call
raises an error or returns a falsy/empty value, the fallback-table entry
keyed by (tokenAddress, networkType) is substituted, and if no entry
exists, name and symbol become the empty string and decimals the string
"0". (Hypotheses: the static table's entries are known-good metadata,
i.e. truthy when present, per the spec's glossary.) -/
theorem getTokenData_fallback_policy (settings : Settings) (calls : ExtCalls) (addr : String)
    (hname : entryTruthy (settings.fbTable addr "name" settings.networkType) = true)
    (hsymbol : entryTruthy (settings.fbTable addr "symbol" settings.networkType) = true)
    (hdecimals : entryTruthy (settings.fbTable addr "decimals" settings.networkType) = true) :
    (getTokenData settings calls addr).address = addr
    ∧ (getTokenData settings calls addr).name
        = specFieldResult calls.nameCall (settings.fbTable addr "name" settings.networkType) (.str "")
    ∧ (getTokenData settings calls addr).symbol
        = specFieldResult calls.symbolCall (settings.fbTable addr "symbol" settings.networkType) (.str "")
    ∧ (getTokenData settings calls addr).decimals
        = specFieldResult calls.decimalsCall (settings.fbTable addr "decimals" settings.networkType) (.str "0") :=
  ⟨rfl, loadTokenName_eq_spec settings calls.nameCall addr hname,
    loadTokenSymbol_eq_spec settings calls.symbolCall addr hsymbol,
    loadTokenDecimals_eq_spec settings calls.decimalsCall addr hdecimals⟩

/-- Claim C6 witness: for address "0xAAA" on "rinkeby" with all three
external calls rejecting, the symbol falls back to the table entry
"FOO", while name and decimals, having no entry, become "" and "0". -/
theorem getTokenData_fallback_policy_witness :
    ((getTokenData settings1 callsErr "0xAAA").address = "0xAAA"
      ∧ (getTokenData settings1 callsErr "0xAAA").name
          = specFieldResult callsErr.nameCall (settings1.fbTable "0xAAA" "name" settings1.networkType) (.str "")
      ∧ (getTokenData settings1 callsErr "0xAAA").symbol
          = specFieldResult callsErr.symbolCall (settings1.fbTable "0xAAA" "symbol" settings1.networkType) (.str "")
      ∧ (getTokenData settings1 callsErr "0xAAA").decimals
          = specFieldResult callsErr.decimalsCall (settings1.fbTable "0xAAA" "decimals" settings1.networkType) (.str "0"))
    ∧ (getTokenData settings1 callsErr "0xAAA").symbol = JSVal.str "FOO"
    ∧ (getTokenData settings1 callsErr "0xAAA").name = JSVal.str ""
    ∧ (getTokenData settings1 callsErr "0xAAA").decimals = JSVal.str "0" :=
  ⟨getTokenData_fallback_policy settings1 callsErr "0xAAA" (by decide) (by decide) (by decide),
    by decide, by decide, by decide⟩

/-- Claim C7: when the discovered accepted-token list contains the
native-asset placeholder address, at any position, the bootstrap seed's
acceptedTokens sequence has the hard-coded native-asset descriptor
(decimals 18, name "Ether", symbol "ETH") as its first element, ahead of
all resolved entries, and the placeholder address is excluded from the
address list handed to the metadata resolver. -/
theorem native_asset_first_in_accepted_tokens (settings : Settings)
    (resolveCalls : String → ExtCalls) (managerTokenAddresses tokens : List String)
    (cachedState : JSState)
    (h : ETHER_TOKEN_FAKE_ADDRESS ∈ tokens) :
    ∃ st : StateRec,
      initializeState settings resolveCalls managerTokenAddresses tokens cachedState = some st
      ∧ ∃ ats : List Token, st.acceptedTokens = some ats
        ∧ ats.head? = some etherTokenEntry
        ∧ etherTokenEntry.decimals = JSVal.num 18
        ∧ etherTokenEntry.name = JSVal.str "Ether"
        ∧ etherTokenEntry.symbol = JSVal.str "ETH"
        ∧ ats.tail = getAcceptedTokens settings resolveCalls tokens
        ∧ ∀ a ∈ tokens.filter (fun t => t != ETHER_TOKEN_FAKE_ADDRESS),
            a ≠ ETHER_TOKEN_FAKE_ADDRESS := by
  have hc : tokens.contains ETHER_TOKEN_FAKE_ADDRESS = true := by simpa using h
  refine ⟨_, rfl, etherTokenEntry :: getAcceptedTokens settings resolveCalls tokens,
    ?_, rfl, rfl, rfl, rfl, rfl, ?_⟩
  · simp [h]
  · intro a ha heq
    rw [List.mem_filter] at ha
    subst heq
    simpa using ha.2

/-- Claim C7 witness: with the placeholder in the middle of the
discovered list, the seed's acceptedTokens start with the Ether
descriptor and the resolver list excludes the placeholder. -/
theorem native_asset_first_in_accepted_tokens_witness :
    ∃ st : StateRec,
      initializeState settings0 resolve0 [] ["0xA", ETHER_TOKEN_FAKE_ADDRESS, "0xB"] none = some st
      ∧ ∃ ats : List Token, st.acceptedTokens = some ats
        ∧ ats.head? = some etherTokenEntry
        ∧ etherTokenEntry.decimals = JSVal.num 18
        ∧ etherTokenEntry.name = JSVal.str "Ether"
        ∧ etherTokenEntry.symbol = JSVal.str "ETH"
        ∧ ats.tail = getAcceptedTokens settings0 resolve0 ["0xA", ETHER_TOKEN_FAKE_ADDRESS, "0xB"]
        ∧ ∀ a ∈ (["0xA", ETHER_TOKEN_FAKE_ADDRESS, "0xB"] : List String).filter
              (fun t => t != ETHER_TOKEN_FAKE_ADDRESS),
            a ≠ ETHER_TOKEN_FAKE_ADDRESS :=
  native_asset_first_in_accepted_tokens settings0 resolve0 []
    ["0xA", ETHER_TOKEN_FAKE_ADDRESS, "0xB"] none (by decide)

end TokenRequestApp
